import Mathlib

/-!
Shallow embedding of the `TDS-Project1-llm-code-deployment` repository
(`app/llm_generator_gemini.py` and `app/main.py`) together with proofs of
the behavioural claims about it.

Text is modelled as `List Char`; Python `dict[str, str]` is modelled as an
insertion-ordered association list with Python's assignment semantics
(`dictSet`); machine-level details (file system, subprocess, HTTP) are
modelled by explicit environments recording the outcome of each external
call, and functions that can raise return `Except`.
-/

namespace LlmDeploy

/-- Python `dict` assignment `d[k] = v`: replace the value in place if the
key is present, otherwise append the new binding at the end (insertion
order preserved, as in CPython). -/
def dictSet {β : Type} : List (String × β) → String → β → List (String × β)
  | [], k, v => [(k, v)]
  | (k0, v0) :: rest, k, v =>
    if k0 = k then (k, v) :: rest else (k0, v0) :: dictSet rest k v

/-- Ordered-dictionary lookup (`k in d` / `d[k]`). -/
def dictGet {β : Type} : List (String × β) → String → Option β
  | [], _ => none
  | (k0, v0) :: rest, k => if k0 = k then some v0 else dictGet rest k

/-- The characters Python's `str.strip()` removes (the ASCII whitespace
characters; input handled by this pipeline is ASCII-fenced markdown). -/
def isPyWs (c : Char) : Bool :=
  c = ' ' || c = '\t' || c = '\n' || c = '\r' || c = Char.ofNat 11 || c = Char.ofNat 12

/-- Python `str.strip()`. -/
def pyStrip (s : List Char) : List Char :=
  ((s.dropWhile isPyWs).reverse.dropWhile isPyWs).reverse

/-- Python substring test `pat in s`. -/
def containsSub (pat : List Char) : List Char → Bool
  | [] => pat.isEmpty
  | c :: cs => pat.isPrefixOf (c :: cs) || containsSub pat cs

/-- The regex character class `[a-zA-Z0-9.+-]` of the fenced-block pattern. -/
def isLangChar (c : Char) : Bool :=
  c.isAlpha || c.isDigit || c = '.' || c = '+' || c = '-'

/-- The backtick character (U+0060). -/
def btick : Char := Char.ofNat 96

/-- If the text starts with a triple-backtick fence, return the remainder. -/
def startsFence : List Char → Option (List Char)
  | a :: b :: c :: rest =>
    if a = btick ∧ b = btick ∧ c = btick then some rest else none
  | _ => none

/-- Split the text at the first triple-backtick fence: the non-greedy
`(.*?)` capture followed by the closing fence of the regex
`([a-zA-Z0-9.+-]*)\n(.*?)` + closing fence. Returns the captured content
and the text after the closing fence, or `none` if no closing fence. -/
def splitClose : List Char → Option (List Char × List Char)
  | [] => none
  | c :: cs =>
    match startsFence (c :: cs) with
    | some rest => some ([], rest)
    | none =>
      match splitClose cs with
      | some (pre, post) => some (c :: pre, post)
      | none => none

/-- Try to match the block regex at the head of the text: opening fence,
greedy language marker from `[a-zA-Z0-9.+-]` (no backtracking is possible
since the class excludes the newline that must follow), a newline, the
shortest content terminated by a closing fence. Returns
`((lang, content), rest-after-match)` on success. -/
def tryBlock (s : List Char) : Option ((List Char × List Char) × List Char) :=
  match startsFence s with
  | none => none
  | some r1 =>
    let lang := r1.takeWhile isLangChar
    let r2 := r1.drop lang.length
    match r2 with
    | c :: body =>
      if c = '\n' then
        match splitClose body with
        | some (content, rest) => some ((lang, content), rest)
        | none => none
      else none
    | [] => none

/-- `re.findall` scan: repeatedly try the block pattern at the current
position; on a match continue after it (non-overlapping), otherwise
advance one character. Fueled by the text length, which bounds the number
of scan steps since every step strictly consumes input. -/
def findBlocksAux : Nat → List Char → List (List Char × List Char)
  | 0, _ => []
  | _, [] => []
  | fuel + 1, c :: cs =>
    match tryBlock (c :: cs) with
    | some (b, rest) => b :: findBlocksAux fuel rest
    | none => findBlocksAux fuel cs

/-- `re.findall(r"..."` fenced-block pattern `, md, flags=re.DOTALL)`. -/
def findBlocks (md : List Char) : List (List Char × List Char) :=
  findBlocksAux md.length md

/-- Decimal digits of `n` (least significant first), empty for 0. -/
def decDigitsAux : Nat → List Char
  | 0 => []
  | n + 1 => Nat.digitChar ((n + 1) % 10) :: decDigitsAux ((n + 1) / 10)
decreasing_by exact Nat.div_lt_self (Nat.succ_pos n) (by decide)

/-- Decimal rendering of a natural number, as produced by Python's
f-string interpolation of an `int`. -/
def decStr (n : Nat) : String :=
  if n = 0 then "0" else ⟨(decDigitsAux n).reverse⟩

/-- Numeric value of a decimal digit character (inverse of
`Nat.digitChar` on digits). -/
def charDigit (c : Char) : Nat := c.toNat - 48

/-- Value of a little-endian decimal digit list (inverse of
`decDigitsAux`). -/
def decVal : List Char → Nat
  | [] => 0
  | c :: r => charDigit c + 10 * decVal r

/-- The three categories of fenced block the extractor recognises. -/
inductive Cat
  | html
  | js
  | css
deriving DecidableEq

/-- Classification of a language marker, following the `if`/`elif` chain of
`_extract_files_from_markdown`: lowercase the marker; "html" a substring →
HTML; "javascript" a substring or the marker equal to "js"/"jsx" → script;
"css" a substring → stylesheet; otherwise ignored. -/
def langCategory (lang : List Char) : Option Cat :=
  let l := lang.map Char.toLower
  if containsSub ("html".data) l then some Cat.html
  else if containsSub ("javascript".data) l || l = "js".data || l = "jsx".data then
    some Cat.js
  else if containsSub ("css".data) l then some Cat.css
  else none

/-- File name for the n-th HTML block (1-indexed): `index.html`, then
`page{n}.html`. -/
def htmlName (n : Nat) : String :=
  if n = 1 then "index.html" else "page" ++ decStr n ++ ".html"

/-- File name for the n-th script block: `script.js`, then `script{n}.js`. -/
def jsName (n : Nat) : String :=
  if n = 1 then "script.js" else "script" ++ decStr n ++ ".js"

/-- File name for the n-th stylesheet block: `style.css`, then
`style{n}.css`. -/
def cssName (n : Nat) : String :=
  if n = 1 then "style.css" else "style" ++ decStr n ++ ".css"

/-- Whether a fenced block is classified as HTML. -/
def isHtmlBlock (b : List Char × List Char) : Bool :=
  langCategory b.1 == some Cat.html

/-- The per-category counters `html_count`, `js_count`, `css_count`. -/
structure Counts where
  html : Nat
  js : Nat
  css : Nat
deriving DecidableEq

/-- One iteration of the block loop of `_extract_files_from_markdown`. -/
def extractStep (acc : Counts × List (String × List Char))
    (b : List Char × List Char) : Counts × List (String × List Char) :=
  let (cnt, files) := acc
  match langCategory b.1 with
  | some Cat.html =>
    let n := cnt.html + 1
    ({ cnt with html := n }, dictSet files (htmlName n) (pyStrip b.2))
  | some Cat.js =>
    let n := cnt.js + 1
    ({ cnt with js := n }, dictSet files (jsName n) (pyStrip b.2))
  | some Cat.css =>
    let n := cnt.css + 1
    ({ cnt with css := n }, dictSet files (cssName n) (pyStrip b.2))
  | none => acc

/-- `_extract_files_from_markdown`: scan the text for fenced blocks,
classify them into named files, and fall back to the whole stripped text
as `index.html` when nothing was produced. -/
def extract_files_from_markdown (md : List Char) : List (String × List Char) :=
  let blocks := findBlocks md
  let files := (blocks.foldl extractStep (⟨0, 0, 0⟩, [])).2
  if files.isEmpty then [("index.html", pyStrip md)] else files

/-- The caller-side guard in `generate_app_with_gemini` (lines 122–123):
`if "index.html" not in files: files["index.html"] = next(iter(files.values()))`.
On an empty mapping `next(iter(...))` would raise `StopIteration`; that
branch is unreachable because the extractor never returns an empty mapping. -/
def ensureIndexHtml (files : List (String × List Char)) : List (String × List Char) :=
  if (dictGet files "index.html").isNone then
    match files with
    | [] => []
    | (_, v) :: _ => dictSet files "index.html" v
  else files

/-- `generate_app_with_gemini`, with the external world supplied as data:
`apiKey` is `os.getenv("GEMINI_API_KEY")`, and `resp` is the outcome of the
model call — `Except.error e` when `model.generate_content` raises (for
example on rate limiting) and `Except.ok t` when it returns, `t` being the
possibly-absent `resp.text`. Returns the file mapping written to the work
directory, or the error the Python function raises. -/
def generate_app_with_gemini (apiKey : Option String)
    (resp : Except String (Option String)) :
    Except String (List (String × List Char)) :=
  match apiKey with
  | none => Except.error "GEMINI_API_KEY not set"
  | some _ =>
    match resp with
    | Except.error e => Except.error e
    | Except.ok t =>
      let text := pyStrip (t.getD "").data
      if text.isEmpty then Except.error "Gemini returned empty response"
      else
        let files := extract_files_from_markdown text
        Except.ok (ensureIndexHtml files)

/-- `_public_remote`: the non-authenticated remote URL. -/
def public_remote (user repo : String) : String :=
  "https://github.com/" ++ user ++ "/" ++ repo ++ ".git"

/-- `_token_remote`: the tokenized (credential-bearing) remote URL used
only for pushing. -/
def token_remote (user token repo : String) : String :=
  "https://" ++ user ++ ":" ++ token ++ "@github.com/" ++ user ++ "/" ++ repo ++ ".git"

/-- The Pages site URL `https://{GITHUB_USER}.github.io/{repo}/`. -/
def pages_url_of (user repo : String) : String :=
  "https://" ++ user ++ ".github.io/" ++ repo ++ "/"

/-- A git command issued through `run`, abstracted to what matters for the
remote-configuration state: commands that change or use the `origin`
remote are kept symbolic, all others are opaque. A clone is recorded as
establishing the `origin` remote at the clone URL. -/
inductive GitCmd
  | remoteAdd (name url : String)
  | remoteSetUrl (name url : String)
  | push (name : String)
  | other (descr : String)
deriving DecidableEq

/-- Observable git-side state: the remote configuration of the working
tree and the remote URLs that pushes were performed against. -/
structure GitView where
  remotes : List (String × String)
  pushedWith : List String
deriving DecidableEq

/-- Interpret one git command against the observable state. -/
def gitStep (st : GitView) : GitCmd → GitView
  | GitCmd.remoteAdd n u => { st with remotes := dictSet st.remotes n u }
  | GitCmd.remoteSetUrl n u => { st with remotes := dictSet st.remotes n u }
  | GitCmd.push n =>
    { st with
      pushedWith :=
        st.pushedWith ++ (match dictGet st.remotes n with
          | some u => [u]
          | none => []) }
  | GitCmd.other _ => st

/-- Replay a command sequence from an empty working tree. -/
def gitRun (cmds : List GitCmd) : GitView :=
  cmds.foldl gitStep ⟨[], []⟩

/-- Outcome environment for one run of `create_repo_and_push`: whether each
`run`-wrapped git subprocess exits 0, the status and body of the
repository-creation REST call, the outcome of each Pages-enablement
attempt (`none` = the request raised, `some s` = HTTP status `s`), and the
commit hash `git rev-parse HEAD` prints. -/
structure PubEnv where
  initOk : Bool
  cfgEmailOk : Bool
  cfgNameOk : Bool
  addOk : Bool
  commitOk : Bool
  createStatus : Nat
  createMsgAlreadyExists : Bool
  remoteAddOk : Bool
  pushOk : Bool
  setUrlOk : Bool
  pagesAttempt : Nat → Option Nat
  revParseOk : Bool
  headSha : String

/-- The `for _ in range(5)` Pages-enablement loop: break (return `true`) on
status 201, 204 or 409; on any other status or an exception, sleep and try
the next attempt; after the fifth failure fall through (return `false`)
without raising. -/
def pagesLoopFrom (f : Nat → Option Nat) : Nat → Nat → Bool
  | _, 0 => false
  | i, n + 1 =>
    match f i with
    | some s =>
      if s = 201 ∨ s = 204 ∨ s = 409 then true else pagesLoopFrom f (i + 1) n
    | none => pagesLoopFrom f (i + 1) n

/-- Result of a successful `create_repo_and_push`: the returned triple plus
the git command sequence executed and whether Pages enablement was
acknowledged. -/
structure PubResult where
  repoUrl : String
  sha : String
  pagesUrl : String
  cmds : List GitCmd
  pagesEnabled : Bool

/-- `create_repo_and_push`: init the branch, set identity, write LICENSE /
README / Pages workflow (pure file writes), add and commit, create the
repository over REST treating a 422 "already exists" as non-fatal, push
via the tokenized remote then rewrite the remote to the public URL, try to
enable Pages up to five times swallowing every failure, and read HEAD.
Any failing `run` call and any creation status other than 200/201/the
"already exists" 422 raises. -/
def create_repo_and_push (user token repo : String) (env : PubEnv) :
    Except String PubResult :=
  let repoUrl := public_remote user repo
  if !env.initOk then Except.error "CMD failed: git init" else
  if !env.cfgEmailOk then Except.error "CMD failed: git config user.email" else
  if !env.cfgNameOk then Except.error "CMD failed: git config user.name" else
  if !env.addOk then Except.error "CMD failed: git add -A" else
  if !env.commitOk then Except.error "CMD failed: git commit" else
  let tail : Except String PubResult :=
    if !env.remoteAddOk then Except.error "CMD failed: git remote add origin" else
    if !env.pushOk then Except.error "CMD failed: git push -u origin" else
    if !env.setUrlOk then Except.error "CMD failed: git remote set-url origin" else
    let enabled := pagesLoopFrom env.pagesAttempt 0 5
    if !env.revParseOk then Except.error "CMD failed: git rev-parse HEAD" else
    Except.ok
      { repoUrl := repoUrl
        sha := env.headSha
        pagesUrl := pages_url_of user repo
        cmds :=
          [GitCmd.other "git init -b BRANCH",
           GitCmd.other "git config user.email",
           GitCmd.other "git config user.name",
           GitCmd.other "git add -A",
           GitCmd.other "git commit",
           GitCmd.remoteAdd "origin" (token_remote user token repo),
           GitCmd.push "origin",
           GitCmd.remoteSetUrl "origin" (public_remote user repo),
           GitCmd.other "git rev-parse HEAD"]
        pagesEnabled := enabled }
  if env.createStatus = 422 ∧ env.createMsgAlreadyExists then tail
  else if ¬(env.createStatus = 200 ∨ env.createStatus = 201) then
    Except.error "GitHub repo creation failed"
  else tail

/-- Outcome environment for one run of `update_llm_app`: subprocess
outcomes for each git call, in source order. -/
structure UpdEnv where
  cloneOk : Bool
  checkoutOk : Bool
  checkoutTrackOk : Bool
  setUrlTokenOk : Bool
  cfgEmailOk : Bool
  cfgNameOk : Bool
  addOk : Bool
  commitOk : Bool
  pushOk : Bool
  setUrlPublicOk : Bool
  revParseOk : Bool
  headSha : String

/-- `update_llm_app`: clone (establishing `origin` at the public URL),
checkout the branch with a tracking-branch fallback, regenerate with
Gemini (whose failure propagates — there is no handler on this path),
rewrite the workflow / marker / README files, switch the remote to the
tokenized URL, set identity, add, commit, push, restore the public remote
URL, and read HEAD. Returns the new commit hash and the git command
sequence executed. -/
def update_llm_app (user token repo : String) (apiKey : Option String)
    (resp : Except String (Option String)) (env : UpdEnv) :
    Except String (String × List GitCmd) :=
  if !env.cloneOk then Except.error "CMD failed: git clone" else
  if !env.checkoutOk && !env.checkoutTrackOk then
    Except.error "CMD failed: git checkout -B" else
  let co := if env.checkoutOk then [GitCmd.other "git checkout BRANCH"]
    else [GitCmd.other "git checkout -B BRANCH origin/BRANCH"]
  generate_app_with_gemini apiKey resp >>= fun _files =>
  if !env.setUrlTokenOk then Except.error "CMD failed: git remote set-url origin" else
  if !env.cfgEmailOk then Except.error "CMD failed: git config user.email" else
  if !env.cfgNameOk then Except.error "CMD failed: git config user.name" else
  if !env.addOk then Except.error "CMD failed: git add -A" else
  if !env.commitOk then Except.error "CMD failed: git commit" else
  if !env.pushOk then Except.error "CMD failed: git push origin" else
  if !env.setUrlPublicOk then Except.error "CMD failed: git remote set-url origin" else
  if !env.revParseOk then Except.error "CMD failed: git rev-parse HEAD" else
  Except.ok
    (env.headSha,
     [GitCmd.remoteAdd "origin" (public_remote user repo)] ++ co ++
     [GitCmd.remoteSetUrl "origin" (token_remote user token repo),
      GitCmd.other "git config user.email",
      GitCmd.other "git config user.name",
      GitCmd.other "git add -A",
      GitCmd.other "git commit",
      GitCmd.push "origin",
      GitCmd.remoteSetUrl "origin" (public_remote user repo),
      GitCmd.other "git rev-parse HEAD"])

/-- `verify_secret`: reject with HTTP 401 when the configured shared secret
is unset (`None`) or empty (both falsy in Python) or when the supplied
secret differs from it. -/
def verify_secret (shared : Option String) (s : String) : Except Nat Unit :=
  if shared = none ∨ shared = some "" ∨ some s ≠ shared then Except.error 401
  else Except.ok ()

/-- The fields of the `Task` request body relevant to routing (`checks`,
`evaluation_url` and `attachments` do not influence the modelled control
flow). -/
structure TaskM where
  email : String
  secret : String
  task : String
  round : Int
  nonce : String
  brief : String

/-- The externally observable calls the `/ingest` handler can make, in
order: the generation step (attachment fetches plus the model call), the
publish or update of the repository, and the scheduling of the evaluator
notification. -/
inductive Effect
  | generation
  | publish
  | update
  | notifyScheduled
deriving DecidableEq

/-- Environment for one `/ingest` request: model credential and response,
attachment-fetch outcome, and the publish/update environments. -/
structure IngestEnv where
  attachOk : Bool
  apiKey : Option String
  resp : Except String (Option String)
  penv : PubEnv
  uenv : UpdEnv

/-- The acknowledgment body returned to the caller on success. -/
structure IngestResp where
  repoUrl : String
  sha : String
  pagesUrl : String
deriving DecidableEq

/-- The `/ingest` handler: verify the secret (raising 401 before any other
work), then for round 1 generate the app and publish a new repository, and
for every other round clone-and-update the existing one; finally schedule
the evaluator notification and return the acknowledgment. An uncaught
exception from a step surfaces as a 500 to the caller. The second
component is the trace of external calls made. -/
def ingest (shared : Option String) (user token : String) (t : TaskM)
    (env : IngestEnv) : Except Nat IngestResp × List Effect :=
  match verify_secret shared t.secret with
  | Except.error c => (Except.error c, [])
  | Except.ok _ =>
    if t.round = 1 then
      if !env.attachOk then (Except.error 500, [Effect.generation]) else
      match generate_app_with_gemini env.apiKey env.resp with
      | Except.error _ => (Except.error 500, [Effect.generation])
      | Except.ok _ =>
        match create_repo_and_push user token t.task env.penv with
        | Except.error _ => (Except.error 500, [Effect.generation, Effect.publish])
        | Except.ok r =>
          (Except.ok ⟨r.repoUrl, r.sha, r.pagesUrl⟩,
           [Effect.generation, Effect.publish, Effect.notifyScheduled])
    else
      match update_llm_app user token t.task env.apiKey env.resp env.uenv with
      | Except.error _ => (Except.error 500, [Effect.update])
      | Except.ok (sha, _) =>
        (Except.ok ⟨public_remote user t.task, sha, pages_url_of user t.task⟩,
         [Effect.update, Effect.notifyScheduled])

/-- An inbound request body before validation: every field the `Task`
pydantic model declares as required may be absent. The optional
`attachments` field (defaulted to `[]` in the schema) can never cause a
validation failure and plays no part in routing, so it is left out. -/
structure RawTask where
  email : Option String
  secret : Option String
  task : Option String
  round : Option Int
  nonce : Option String
  brief : Option String
  checks : Option (List String)
  evaluationUrl : Option String

/-- Request validation against the `Task` schema (main.py lines 13-22):
every required field must be present, or FastAPI rejects the request with
HTTP 422 before the handler runs. Pydantic reports all missing fields at
once; only the resulting status and the absence of side effects are
observable, so the order in which fields are checked here is immaterial. -/
def parse_task (r : RawTask) : Except Nat TaskM :=
  match r.secret with
  | none => Except.error 422
  | some s =>
    match r.email, r.task, r.round, r.nonce, r.brief, r.checks, r.evaluationUrl with
    | some e, some t, some rd, some n, some b, some _, some _ =>
      Except.ok ⟨e, s, t, rd, n, b⟩
    | _, _, _, _, _, _, _ => Except.error 422

/-- The `/ingest` endpoint as seen by a client: request validation first
(a failure produces its 4xx with no external call), then the handler. -/
def ingest_endpoint (shared : Option String) (user token : String)
    (r : RawTask) (env : IngestEnv) : Except Nat IngestResp × List Effect :=
  match parse_task r with
  | Except.error c => (Except.error c, [])
  | Except.ok t => ingest shared user token t env

/-- One observable event of `notify_evaluator`: a delivery attempt with its
outcome (`none` = the POST raised, `some s` = HTTP status `s`), or a
`time.sleep` of the given duration. -/
inductive NEvent
  | att (res : Option Nat)
  | slp (d : Nat)
deriving DecidableEq

/-- The retry loop of `notify_evaluator` over the remaining delay schedule,
`i` being the index of the next attempt: on status exactly 200 return
immediately; on any other status or an exception, sleep the scheduled
delay (also after the final attempt) and continue. -/
def notifyLoopE (resp : Nat → Option Nat) : List Nat → Nat → List NEvent
  | [], _ => []
  | d :: ds, i =>
    match resp i with
    | some s =>
      if s = 200 then [NEvent.att (some s)]
      else NEvent.att (some s) :: NEvent.slp d :: notifyLoopE resp ds (i + 1)
    | none => NEvent.att none :: NEvent.slp d :: notifyLoopE resp ds (i + 1)

/-- The fixed delay schedule `[1, 2, 4, 8, 16]`. -/
def notifyDelays : List Nat := [1, 2, 4, 8, 16]

/-- Event trace of one `notify_evaluator` run (the preceding
`wait_for_pages` gate does not affect delivery attempts and is not part of
the trace). The function always returns normally: every exception of the
POST is caught inside the loop. -/
def notify_evaluator_trace (resp : Nat → Option Nat) : List NEvent :=
  notifyLoopE resp notifyDelays 0

/-- Number of delivery attempts in a trace. -/
def attCount (tr : List NEvent) : Nat :=
  (tr.filter fun e =>
    match e with
    | NEvent.att _ => true
    | _ => false).length

/-- Whether a trace contains a successful delivery (status exactly 200). -/
def delivered (tr : List NEvent) : Bool :=
  tr.any fun e =>
    match e with
    | NEvent.att (some s) => s = 200
    | _ => false

/-- Sum the sleeps until the next attempt; sleeps after the last attempt
are not between two attempts and are dropped. -/
def gapsAfterFirstAtt : List NEvent → Nat → List Nat
  | [], _ => []
  | NEvent.slp d :: rest, acc => gapsAfterFirstAtt rest (acc + d)
  | NEvent.att _ :: rest, acc => acc :: gapsAfterFirstAtt rest 0

/-- The waiting times between consecutive delivery attempts of a trace. -/
def interDelays : List NEvent → List Nat
  | [] => []
  | NEvent.slp _ :: rest => interDelays rest
  | NEvent.att _ :: rest => gapsAfterFirstAtt rest 0

/-- An endpoint behaviour whose third answer (attempt index 2) is 200 and
whose other answers are 503. -/
def respHitAt2 : Nat → Option Nat :=
  fun i => if i = 2 then some 200 else some 503

/-- Whether an `Except` computation finished without raising. -/
def exOk {ε α : Type} : Except ε α → Bool
  | Except.ok _ => true
  | Except.error _ => false

/-- A publish environment in which every external call succeeds. -/
def pubEnvOk : PubEnv :=
  { initOk := true, cfgEmailOk := true, cfgNameOk := true, addOk := true,
    commitOk := true, createStatus := 201, createMsgAlreadyExists := false,
    remoteAddOk := true, pushOk := true, setUrlOk := true,
    pagesAttempt := fun _ => some 201, revParseOk := true, headSha := "a1b2c3d" }

/-- A publish environment in which the hosting platform answers the
create-repository call with 422 "already exists" and everything else
succeeds. -/
def pubEnvExists : PubEnv :=
  { pubEnvOk with createStatus := 422, createMsgAlreadyExists := true }

/-- A publish environment in which every Pages-enablement attempt fails
with HTTP 500 and everything else succeeds. -/
def pubEnvPagesFail : PubEnv :=
  { pubEnvOk with pagesAttempt := fun _ => some 500 }

/-- An update environment in which every external call succeeds. -/
def updEnvOk : UpdEnv :=
  { cloneOk := true, checkoutOk := true, checkoutTrackOk := true,
    setUrlTokenOk := true, cfgEmailOk := true, cfgNameOk := true,
    addOk := true, commitOk := true, pushOk := true, setUrlPublicOk := true,
    revParseOk := true, headSha := "e4f5a6b" }

/-- An ingest environment in which every external call succeeds. -/
def ingestEnvOk : IngestEnv :=
  { attachOk := true, apiKey := some "k",
    resp := Except.ok (some "```html\nhi\n```"), penv := pubEnvOk,
    uenv := updEnvOk }

/-- A request body whose secret field is missing and whose other fields
are all present. -/
def rawTaskNoSecret : RawTask :=
  { email := some "a@b.c", secret := none, task := some "task-1",
    round := some 1, nonce := some "n", brief := some "todo list",
    checks := some [], evaluationUrl := some "https://eval.example/notify" }

/-- A request body that parses against the schema but carries the wrong
shared secret. -/
def rawTaskWrongSecret : RawTask :=
  { email := some "a@b.c", secret := some "wrong", task := some "task-1",
    round := some 1, nonce := some "n", brief := some "todo list",
    checks := some [], evaluationUrl := some "https://eval.example/notify" }

/-- A round-1 task carrying the wrong shared secret. -/
def taskWrongSecret : TaskM :=
  { email := "a@b.c", secret := "wrong", task := "task-1", round := 1,
    nonce := "n", brief := "todo list" }

/-- A correctly authenticated round-0 task. -/
def taskRound0 : TaskM :=
  { email := "a@b.c", secret := "s3cret", task := "task-1", round := 0,
    nonce := "n", brief := "todo list" }

/-- A model response with no fenced block at all. -/
def mdPlain : List Char := "Hello, a plain answer.".data

/-- A model response with two html-tagged fenced blocks. -/
def mdTwoHtml : List Char := "```html\nA\n```\nand\n```html\nB\n```".data

/-- A model response whose only fenced block is JavaScript. -/
def mdJsOnly : List Char := "```js\nconsole.log(1)\n```".data

/-! ### Helper lemmas about the notifier loop -/

theorem notifyLoopE_200 {resp : Nat → Option Nat} {i d : Nat} {ds : List Nat}
    (h : resp i = some 200) :
    notifyLoopE resp (d :: ds) i = [NEvent.att (some 200)] := by
  simp [notifyLoopE, h]

theorem notifyLoopE_fail {resp : Nat → Option Nat} {i d : Nat} {ds : List Nat}
    (h : resp i ≠ some 200) :
    notifyLoopE resp (d :: ds) i =
      NEvent.att (resp i) :: NEvent.slp d :: notifyLoopE resp ds (i + 1) := by
  rcases hr : resp i with _ | s
  · simp [notifyLoopE, hr]
  · have hs : ¬s = 200 := by rintro rfl; exact h hr
    simp [notifyLoopE, hr, hs]

theorem attCount_nil : attCount [] = 0 := rfl

theorem attCount_cons_att (r : Option Nat) (tr : List NEvent) :
    attCount (NEvent.att r :: tr) = attCount tr + 1 := by
  simp [attCount, List.filter_cons]

theorem attCount_cons_slp (d : Nat) (tr : List NEvent) :
    attCount (NEvent.slp d :: tr) = attCount tr := by
  simp [attCount, List.filter_cons]

theorem delivered_cons_fail {r : Option Nat} (h : r ≠ some 200) (tr : List NEvent) :
    delivered (NEvent.att r :: tr) = delivered tr := by
  rcases r with _ | s
  · simp [delivered]
  · have hs : ¬s = 200 := by rintro rfl; exact h rfl
    simp [delivered, hs]

theorem delivered_cons_slp (d : Nat) (tr : List NEvent) :
    delivered (NEvent.slp d :: tr) = delivered tr := by
  simp [delivered]

/-- Behaviour of the retry loop when no remaining scheduled attempt is
answered with status 200: one attempt per schedule entry and no delivery. -/
theorem notifyLoopE_allFail (resp : Nat → Option Nat) :
    ∀ (ds : List Nat) (i : Nat),
      (∀ k, i ≤ k → k < i + ds.length → resp k ≠ some 200) →
      attCount (notifyLoopE resp ds i) = ds.length ∧
        delivered (notifyLoopE resp ds i) = false := by
  intro ds
  induction ds with
  | nil => intro i _; simp [notifyLoopE, attCount, delivered]
  | cons d ds ih =>
    intro i hall
    have hi : resp i ≠ some 200 := hall i (Nat.le_refl i) (by simp)
    rw [notifyLoopE_fail hi]
    obtain ⟨ih1, ih2⟩ := ih (i + 1) (fun k hk1 hk2 => hall k (by omega) (by simp; omega))
    constructor
    · rw [attCount_cons_att, attCount_cons_slp, ih1, List.length_cons]
    · rw [delivered_cons_fail hi, delivered_cons_slp, ih2]

/-- Behaviour of the retry loop when attempt `k` is the first one answered
with status 200: the loop stops right there, having made `k - i + 1`
attempts, with delivery recorded. -/
theorem notifyLoopE_firstHit (resp : Nat → Option Nat) :
    ∀ (ds : List Nat) (i k : Nat),
      i ≤ k → k < i + ds.length → resp k = some 200 →
      (∀ j, i ≤ j → j < k → resp j ≠ some 200) →
      attCount (notifyLoopE resp ds i) = k - i + 1 ∧
        delivered (notifyLoopE resp ds i) = true := by
  intro ds
  induction ds with
  | nil => intro i k h1 h2 _ _; simp at h2; omega
  | cons d ds ih =>
    intro i k h1 h2 hk hfirst
    by_cases hik : k = i
    · subst hik
      rw [notifyLoopE_200 hk]
      constructor
      · rw [attCount_cons_att, attCount_nil]
        omega
      · simp [delivered]
    · have hi : resp i ≠ some 200 := hfirst i (Nat.le_refl i) (by omega)
      rw [notifyLoopE_fail hi]
      obtain ⟨ih1, ih2⟩ := ih (i + 1) k (by omega) (by simp at h2 ⊢; omega) hk
        (fun j hj1 hj2 => hfirst j (by omega) hj2)
      constructor
      · rw [attCount_cons_att, attCount_cons_slp, ih1]
        omega
      · rw [delivered_cons_fail hi, delivered_cons_slp, ih2]

/-! ### Helper lemmas about `Except`-valued if-chains -/

theorem exOk_ite_err {α : Type} (c : Prop) [Decidable c] (e : String)
    (x : Except String α) :
    (exOk (if c then Except.error e else x) = true) ↔ (¬c ∧ exOk x = true) := by
  split_ifs with h <;> simp [exOk, h]

theorem exOk_ite_status {α : Type} (A B : Prop) [Decidable A] [Decidable B]
    (e : String) (x : Except String α) :
    (exOk (if A then x else if B then Except.error e else x) = true) ↔
      ((A ∨ ¬B) ∧ exOk x = true) := by
  split_ifs with h1 h2 <;> simp_all [exOk]

theorem exOk_ok {α : Type} (r : α) : exOk (Except.ok (ε := String) r) = true := rfl

theorem ite_err_ok {α : Type} {c : Prop} [Decidable c] {e : String}
    {x : Except String α} {r : α}
    (h : (if c then Except.error e else x) = Except.ok r) : x = Except.ok r := by
  split_ifs at h
  all_goals first
  | exact h
  | cases h

theorem ite_status_ok {α : Type} {A B : Prop} [Decidable A] [Decidable B]
    {e : String} {x : Except String α} {r : α}
    (h : (if A then x else if B then Except.error e else x) = Except.ok r) :
    x = Except.ok r := by
  split_ifs at h
  all_goals first
  | exact h
  | cases h

/-! ### Helper lemmas about the ordered dictionary -/

theorem dictGet_dictSet_self {β : Type} (l : List (String × β)) (k : String)
    (v : β) : dictGet (dictSet l k v) k = some v := by
  induction l with
  | nil => simp [dictSet, dictGet]
  | cons p rest ih =>
    obtain ⟨k0, v0⟩ := p
    by_cases hk : k0 = k
    · simp [dictSet, dictGet, hk]
    · simp [dictSet, dictGet, hk, ih]

theorem dictGet_dictSet_ne {β : Type} (l : List (String × β)) {k k' : String}
    (v : β) (h : k' ≠ k) : dictGet (dictSet l k v) k' = dictGet l k' := by
  have h2 : ¬k = k' := fun hh => h hh.symm
  induction l with
  | nil => simp [dictSet, dictGet, h2]
  | cons p rest ih =>
    obtain ⟨k0, v0⟩ := p
    by_cases hk : k0 = k
    · subst hk
      simp [dictSet, dictGet, h2]
    · by_cases hk' : k0 = k'
      · simp [dictSet, dictGet, hk, hk', h]
      · simp [dictSet, dictGet, hk, hk', ih]

theorem dictSet_fresh {β : Type} (l : List (String × β)) (k : String) (v : β)
    (h : dictGet l k = none) : dictSet l k v = l ++ [(k, v)] := by
  induction l with
  | nil => rfl
  | cons p rest ih =>
    obtain ⟨k0, v0⟩ := p
    by_cases hk : k0 = k
    · simp [dictGet, hk] at h
    · simp only [dictGet, hk, if_false] at h
      simp [dictSet, hk, ih h]

theorem dictGet_append_of_none {β : Type} (l1 l2 : List (String × β))
    (k : String) (h : dictGet l1 k = none) :
    dictGet (l1 ++ l2) k = dictGet l2 k := by
  induction l1 with
  | nil => rfl
  | cons p rest ih =>
    obtain ⟨k0, v0⟩ := p
    by_cases hk : k0 = k
    · simp [dictGet, hk] at h
    · simp only [dictGet, hk, if_false] at h
      simp [dictGet, hk, ih h]

/-! ### Helper lemmas about the extractor -/

/-- A fold step on an unclassified block leaves the accumulator unchanged,
so a block list with no classified block leaves it unchanged overall. -/
theorem extract_fold_id (blocks : List (List Char × List Char)) :
    ∀ acc, (∀ b ∈ blocks, langCategory b.1 = none) →
      blocks.foldl extractStep acc = acc := by
  induction blocks with
  | nil => intro acc _; rfl
  | cons b bs ih =>
    intro acc h
    rw [List.foldl_cons]
    have hb : langCategory b.1 = none := h b (List.mem_cons_self b bs)
    have hstep : extractStep acc b = acc := by
      obtain ⟨cnt, files⟩ := acc
      simp [extractStep, hb]
    rw [hstep]
    exact ih acc (fun x hx => h x (List.mem_cons_of_mem b hx))

/-- The extractor never returns an empty mapping: either some block was
classified, or the fallback entry is produced. -/
theorem extract_nonempty (md : List Char) :
    extract_files_from_markdown md ≠ [] := by
  simp only [extract_files_from_markdown]
  by_cases he :
    (((findBlocks md).foldl extractStep (⟨0, 0, 0⟩, [])).2).isEmpty = true
  · rw [if_pos he]
    simp
  · rw [if_neg he]
    intro hnil
    exact he (by simp [hnil])

/-- Unfolding equation for `ensureIndexHtml` when no entry is named
`index.html`: the first entry's content is inserted under that name. -/
theorem ensureIndexHtml_of_none {k : String} {v : List Char}
    {rest : List (String × List Char)}
    (h : dictGet ((k, v) :: rest) "index.html" = none) :
    ensureIndexHtml ((k, v) :: rest) = dictSet ((k, v) :: rest) "index.html" v := by
  unfold ensureIndexHtml
  rw [h]
  rfl

/-- Unfolding equation for `ensureIndexHtml` when an entry is already
named `index.html`: the mapping is returned unchanged. -/
theorem ensureIndexHtml_of_some {files : List (String × List Char)}
    {v0 : List Char} (h : dictGet files "index.html" = some v0) :
    ensureIndexHtml files = files := by
  unfold ensureIndexHtml
  rw [h]
  rfl

/-- Specification of the caller-side entry-point guard on any non-empty
mapping: the result contains `index.html`, stays non-empty, and when no
entry was named `index.html` the first entry's content is duplicated under
that name at the end of the mapping. -/
theorem ensureIndexHtml_spec (files : List (String × List Char))
    (hne : files ≠ []) :
    (dictGet (ensureIndexHtml files) "index.html").isSome = true ∧
      ensureIndexHtml files ≠ [] ∧
      (∀ k v rest, files = (k, v) :: rest →
        dictGet files "index.html" = none →
        ensureIndexHtml files = ((k, v) :: rest) ++ [("index.html", v)]) := by
  cases files with
  | nil => exact absurd rfl hne
  | cons p rest =>
    obtain ⟨k, v⟩ := p
    rcases hf : dictGet ((k, v) :: rest) "index.html" with _ | v0
    · have hfresh : dictSet ((k, v) :: rest) "index.html" v =
          ((k, v) :: rest) ++ [("index.html", v)] := dictSet_fresh _ _ _ hf
      rw [ensureIndexHtml_of_none hf]
      refine ⟨?_, ?_, ?_⟩
      · rw [dictGet_dictSet_self]
        rfl
      · rw [hfresh]
        simp
      · intro k1 v1 rest1 heq _
        obtain ⟨⟨rfl, rfl⟩, rfl⟩ : (k = k1 ∧ v = v1) ∧ rest = rest1 := by
          simpa using heq
        exact hfresh
    · rw [ensureIndexHtml_of_some hf]
      refine ⟨by rw [hf]; rfl, by simp, ?_⟩
      intro k1 v1 rest1 _ hnone
      exact absurd hnone (by simp)

/-! ### Helper lemmas about decimal rendering and file names -/

theorem charDigit_digitChar (m : Nat) (h : m < 10) :
    charDigit (Nat.digitChar m) = m := by
  interval_cases m <;> rfl

theorem decVal_decDigitsAux (n : Nat) : decVal (decDigitsAux n) = n := by
  induction n using Nat.strong_induction_on with
  | _ n ih =>
    rcases n with _ | m
    · simp [decDigitsAux, decVal]
    · rw [decDigitsAux]
      rw [decVal]
      rw [ih ((m + 1) / 10) (Nat.div_lt_self (Nat.succ_pos m) (by decide))]
      rw [charDigit_digitChar _ (Nat.mod_lt _ (by decide))]
      exact Nat.mod_add_div (m + 1) 10

theorem decDigitsAux_eq_imp {m n : Nat} (h : decDigitsAux m = decDigitsAux n) :
    m = n := by
  have hm := decVal_decDigitsAux m
  rw [h, decVal_decDigitsAux] at hm
  exact hm.symm

theorem decStr_inj {m n : Nat} (h : decStr m = decStr n) : m = n := by
  by_cases hm : m = 0 <;> by_cases hn : n = 0
  · rw [hm, hn]
  · exfalso
    rw [decStr, decStr, if_pos hm, if_neg hn] at h
    have hd := congrArg String.data h
    have hrev := congrArg List.reverse hd
    simp only [List.reverse_reverse] at hrev
    have h0 : decDigitsAux n = "0".data.reverse := hrev.symm
    have := decVal_decDigitsAux n
    rw [h0] at this
    have hz : decVal ("0".data.reverse) = 0 := rfl
    rw [hz] at this
    exact hn this.symm
  · exfalso
    rw [decStr, decStr, if_neg hm, if_pos hn] at h
    have hd := congrArg String.data h
    have hrev := congrArg List.reverse hd
    simp only [List.reverse_reverse] at hrev
    have h0 : decDigitsAux m = "0".data.reverse := hrev
    have := decVal_decDigitsAux m
    rw [h0] at this
    have hz : decVal ("0".data.reverse) = 0 := rfl
    rw [hz] at this
    exact hm this.symm
  · rw [decStr, decStr, if_neg hm, if_neg hn] at h
    have hd := congrArg String.data h
    have hrev := congrArg List.reverse hd
    simp only [List.reverse_reverse] at hrev
    exact decDigitsAux_eq_imp hrev

theorem htmlName_head_one : (htmlName 1).data.head? = some 'i' := rfl

theorem htmlName_head_ne_one {n : Nat} (h : ¬n = 1) :
    (htmlName n).data.head? = some 'p' := by
  unfold htmlName
  rw [if_neg h]
  rfl

theorem jsName_head (n : Nat) : (jsName n).data.head? = some 's' := by
  unfold jsName
  by_cases h : n = 1
  · rw [if_pos h]
    rfl
  · rw [if_neg h]
    rfl

theorem cssName_head (n : Nat) : (cssName n).data.head? = some 's' := by
  unfold cssName
  by_cases h : n = 1
  · rw [if_pos h]
    rfl
  · rw [if_neg h]
    rfl

theorem htmlName_ne_jsName (a b : Nat) : htmlName a ≠ jsName b := by
  intro h
  have hd : (htmlName a).data.head? = (jsName b).data.head? := by rw [h]
  rw [jsName_head b] at hd
  by_cases h1 : a = 1
  · subst h1
    rw [htmlName_head_one] at hd
    exact absurd hd (by decide)
  · rw [htmlName_head_ne_one h1] at hd
    exact absurd hd (by decide)

theorem htmlName_ne_cssName (a b : Nat) : htmlName a ≠ cssName b := by
  intro h
  have hd : (htmlName a).data.head? = (cssName b).data.head? := by rw [h]
  rw [cssName_head b] at hd
  by_cases h1 : a = 1
  · subst h1
    rw [htmlName_head_one] at hd
    exact absurd hd (by decide)
  · rw [htmlName_head_ne_one h1] at hd
    exact absurd hd (by decide)

theorem htmlName_inj {a b : Nat} (h : htmlName a = htmlName b) : a = b := by
  by_cases h1 : a = 1 <;> by_cases h2 : b = 1
  · rw [h1, h2]
  · exfalso
    have hd : (htmlName a).data.head? = (htmlName b).data.head? := by rw [h]
    rw [h1, htmlName_head_one, htmlName_head_ne_one h2] at hd
    exact absurd hd (by decide)
  · exfalso
    have hd : (htmlName a).data.head? = (htmlName b).data.head? := by rw [h]
    rw [h2, htmlName_head_ne_one h1, htmlName_head_one] at hd
    exact absurd hd (by decide)
  · have hd := congrArg String.data h
    rw [htmlName, htmlName, if_neg h1, if_neg h2] at hd
    rw [String.data_append, String.data_append, String.data_append,
      String.data_append] at hd
    rw [List.append_assoc, List.append_assoc] at hd
    have hd2 := List.append_cancel_left hd
    have hlen : ((decStr a).data).length = ((decStr b).data).length := by
      have hl := congrArg List.length hd2
      simp only [List.length_append] at hl
      omega
    have hda := List.append_inj_left hd2 hlen
    exact decStr_inj (String.ext hda)

/-- Invariant of the extraction fold: the html counter advances by the
number of html-classified blocks, entries already recorded under
`htmlName j` for `j` up to the starting counter are untouched, and the
`i`-th html-classified block of the remaining input ends up stored under
`htmlName (starting counter + i + 1)` with stripped content. -/
theorem extract_fold_invariant (blocks : List (List Char × List Char)) :
    ∀ (cnt : Counts) (fs : List (String × List Char)),
      ((blocks.foldl extractStep (cnt, fs)).1.html =
        cnt.html + (blocks.filter isHtmlBlock).length) ∧
      (∀ j, 1 ≤ j → j ≤ cnt.html →
        dictGet (blocks.foldl extractStep (cnt, fs)).2 (htmlName j) =
          dictGet fs (htmlName j)) ∧
      (∀ i, i < (blocks.filter isHtmlBlock).length →
        dictGet (blocks.foldl extractStep (cnt, fs)).2
            (htmlName (cnt.html + i + 1)) =
          some (pyStrip ((blocks.filter isHtmlBlock).getD i ([], [])).2)) := by
  induction blocks with
  | nil =>
    intro cnt fs
    refine ⟨by simp, fun j _ _ => rfl, fun i hi => ?_⟩
    simp at hi
  | cons b bs ih =>
    intro cnt fs
    rw [List.foldl_cons]
    rcases hcat : langCategory b.1 with _ | cat
    · have hstep : extractStep (cnt, fs) b = (cnt, fs) := by
        simp [extractStep, hcat]
      have hfilter : (b :: bs).filter isHtmlBlock = bs.filter isHtmlBlock := by
        simp [List.filter_cons, isHtmlBlock, hcat]
      rw [hstep, hfilter]
      exact ih cnt fs
    · cases cat
      case html =>
        have hstep : extractStep (cnt, fs) b =
            ({ cnt with html := cnt.html + 1 },
              dictSet fs (htmlName (cnt.html + 1)) (pyStrip b.2)) := by
          simp [extractStep, hcat]
        have hfilter : (b :: bs).filter isHtmlBlock = b :: bs.filter isHtmlBlock := by
          simp [List.filter_cons, isHtmlBlock, hcat]
        rw [hstep, hfilter]
        obtain ⟨ih1, ih2, ih3⟩ := ih { cnt with html := cnt.html + 1 }
          (dictSet fs (htmlName (cnt.html + 1)) (pyStrip b.2))
        refine ⟨?_, ?_, ?_⟩
        · rw [ih1, List.length_cons]
          show cnt.html + 1 + (bs.filter isHtmlBlock).length =
            cnt.html + ((bs.filter isHtmlBlock).length + 1)
          omega
        · intro j hj1 hj2
          rw [ih2 j hj1 (show j ≤ cnt.html + 1 by omega)]
          exact dictGet_dictSet_ne _ _ (fun he => by
            have := htmlName_inj he
            omega)
        · intro i hi
          cases i with
          | zero =>
            have hpres := ih2 (cnt.html + 1) (by omega)
              (show cnt.html + 1 ≤ cnt.html + 1 from Nat.le_refl _)
            have harith : cnt.html + 0 + 1 = cnt.html + 1 := by omega
            rw [harith, hpres, dictGet_dictSet_self, List.getD_cons_zero]
          | succ i2 =>
            have hlen : i2 < (bs.filter isHtmlBlock).length := by
              rw [List.length_cons] at hi
              omega
            have h3 := ih3 i2 hlen
            have harith : cnt.html + (i2 + 1) + 1 = cnt.html + 1 + i2 + 1 := by
              omega
            rw [harith, List.getD_cons_succ]
            exact h3
      case js =>
        have hstep : extractStep (cnt, fs) b =
            ({ cnt with js := cnt.js + 1 },
              dictSet fs (jsName (cnt.js + 1)) (pyStrip b.2)) := by
          simp [extractStep, hcat]
        have hfilter : (b :: bs).filter isHtmlBlock = bs.filter isHtmlBlock := by
          simp [List.filter_cons, isHtmlBlock, hcat]
        rw [hstep, hfilter]
        obtain ⟨ih1, ih2, ih3⟩ := ih { cnt with js := cnt.js + 1 }
          (dictSet fs (jsName (cnt.js + 1)) (pyStrip b.2))
        refine ⟨ih1, ?_, fun i hi => ih3 i hi⟩
        intro j hj1 hj2
        rw [ih2 j hj1 hj2]
        exact dictGet_dictSet_ne _ _ (htmlName_ne_jsName j (cnt.js + 1))
      case css =>
        have hstep : extractStep (cnt, fs) b =
            ({ cnt with css := cnt.css + 1 },
              dictSet fs (cssName (cnt.css + 1)) (pyStrip b.2)) := by
          simp [extractStep, hcat]
        have hfilter : (b :: bs).filter isHtmlBlock = bs.filter isHtmlBlock := by
          simp [List.filter_cons, isHtmlBlock, hcat]
        rw [hstep, hfilter]
        obtain ⟨ih1, ih2, ih3⟩ := ih { cnt with css := cnt.css + 1 }
          (dictSet fs (cssName (cnt.css + 1)) (pyStrip b.2))
        refine ⟨ih1, ?_, fun i hi => ih3 i hi⟩
        intro j hj1 hj2
        rw [ih2 j hj1 hj2]
        exact dictGet_dictSet_ne _ _ (htmlName_ne_cssName j (cnt.css + 1))

/-! ### Claim theorems -/

/-- C6: when no fenced segment of the input matches any category (in
particular when there is no fenced segment at all), the extractor returns
exactly one entry, named `index.html`, whose content is the stripped input
text. -/
theorem c6_no_match_fallback (md : List Char)
    (h : ∀ b ∈ findBlocks md, langCategory b.1 = none) :
    extract_files_from_markdown md = [("index.html", pyStrip md)] := by
  simp only [extract_files_from_markdown]
  rw [extract_fold_id (findBlocks md) (⟨0, 0, 0⟩, []) h]
  rfl

/-- Witness for C6: a plain-text model response with no fenced block maps
to the single entry `index.html` carrying the stripped response. -/
theorem c6_no_match_fallback_witness :
    (∀ b ∈ findBlocks mdPlain, langCategory b.1 = none) ∧
      extract_files_from_markdown mdPlain = [("index.html", pyStrip mdPlain)] :=
  ⟨by decide, c6_no_match_fallback mdPlain (by decide)⟩

/-- C8: for every input text the extractor returns at least one entry, and
after the caller-side guard the mapping contains an entry named
`index.html`; when no extracted entry bears that name, the content of the
first inserted entry is duplicated under `index.html` before the mapping
is used. -/
theorem c8_entry_point_invariant (md : List Char) :
    extract_files_from_markdown md ≠ [] ∧
      (dictGet (ensureIndexHtml (extract_files_from_markdown md))
        "index.html").isSome = true ∧
      ensureIndexHtml (extract_files_from_markdown md) ≠ [] ∧
      (∀ k v rest, extract_files_from_markdown md = (k, v) :: rest →
        dictGet (extract_files_from_markdown md) "index.html" = none →
        ensureIndexHtml (extract_files_from_markdown md) =
          ((k, v) :: rest) ++ [("index.html", v)]) := by
  obtain ⟨h1, h2, h3⟩ := ensureIndexHtml_spec _ (extract_nonempty md)
  exact ⟨extract_nonempty md, h1, h2, h3⟩

/-- Witness for C8: a response whose only block is JavaScript yields the
single entry `script.js`; the guard then duplicates its content under
`index.html`. -/
theorem c8_entry_point_invariant_witness :
    extract_files_from_markdown mdJsOnly =
        [("script.js", "console.log(1)".data)] ∧
      ensureIndexHtml (extract_files_from_markdown mdJsOnly) =
        [("script.js", "console.log(1)".data),
         ("index.html", "console.log(1)".data)] := by
  have h := (c8_entry_point_invariant mdJsOnly).2.2.2 "script.js"
    ("console.log(1)".data) [] (by decide) (by decide)
  exact ⟨by decide, by rw [h]; rfl⟩

/-- C7: when the input contains N html-classified fenced segments (N ≥ 1),
the extractor stores all N with pairwise-distinct names — the first as
`index.html` and the k-th (k ≥ 2) as `page{k}.html` — and the k-th such
name still maps to the stripped content of the k-th html segment in the
returned mapping, so no earlier file was overwritten. -/
theorem c7_html_naming (md : List Char)
    (hne : (findBlocks md).filter isHtmlBlock ≠ []) :
    ((List.range ((findBlocks md).filter isHtmlBlock).length).map
        (fun i => htmlName (i + 1))).Nodup ∧
      htmlName 1 = "index.html" ∧
      (∀ k, 2 ≤ k → htmlName k = "page" ++ decStr k ++ ".html") ∧
      (∀ i, i < ((findBlocks md).filter isHtmlBlock).length →
        dictGet (extract_files_from_markdown md) (htmlName (i + 1)) =
          some (pyStrip (((findBlocks md).filter isHtmlBlock).getD i
            ([], [])).2)) := by
  obtain ⟨h1, h2, h3⟩ := extract_fold_invariant (findBlocks md) ⟨0, 0, 0⟩ []
  have hlen : 0 < ((findBlocks md).filter isHtmlBlock).length :=
    List.length_pos.mpr hne
  have h0 := h3 0 hlen
  have hfoldne : ((findBlocks md).foldl extractStep (⟨0, 0, 0⟩, [])).2 ≠ [] := by
    intro hnil
    rw [hnil] at h0
    exact Option.noConfusion h0
  have hext : extract_files_from_markdown md =
      ((findBlocks md).foldl extractStep (⟨0, 0, 0⟩, [])).2 := by
    simp only [extract_files_from_markdown]
    rw [if_neg (fun hc => hfoldne (List.isEmpty_iff.mp hc))]
  refine ⟨?_, rfl, ?_, ?_⟩
  · refine List.Nodup.map ?_ (List.nodup_range _)
    intro x y hxy
    have := htmlName_inj hxy
    omega
  · intro k hk
    rw [htmlName, if_neg (by omega)]
  · intro i hi
    rw [hext]
    have hgoal := h3 i hi
    have harith : (⟨0, 0, 0⟩ : Counts).html + i + 1 = i + 1 := by
      show 0 + i + 1 = i + 1
      omega
    rw [harith] at hgoal
    exact hgoal

/-- Witness for C7: a response with two html blocks yields `index.html`
with the first block's content and `page2.html` with the second's. -/
theorem c7_html_naming_witness :
    ((findBlocks mdTwoHtml).filter isHtmlBlock ≠ []) ∧
      dictGet (extract_files_from_markdown mdTwoHtml) (htmlName 1) =
        some ("A".data) ∧
      dictGet (extract_files_from_markdown mdTwoHtml) (htmlName 2) =
        some ("B".data) := by
  have h := (c7_html_naming mdTwoHtml (by decide)).2.2.2
  exact ⟨by decide, (h 0 (by decide)).trans (by decide),
    (h 1 (by decide)).trans (by decide)⟩

/-- C1: the specification (and the code's own comments) promise that an
empty model response and any model-call exception are replaced by a
deterministic fallback page and never propagated; the code instead raises
`RuntimeError("Gemini returned empty response")` on an empty response and
propagates any model-call exception unchanged, so generation does not
yield an artifact in either case. This theorem evaluates the embedded
`generate_app_with_gemini` at both failing inputs. -/
theorem c1_generation_failure_propagates :
    generate_app_with_gemini (some "key") (Except.ok (some "")) =
      Except.error "Gemini returned empty response" ∧
    generate_app_with_gemini (some "key") (Except.error "429 rate limited") =
      Except.error "429 rate limited" := by
  constructor
  · rfl
  · rfl

/-- C4 counterexample: against an endpoint that always answers 503 the
notifier makes 5 attempts, but the waits between consecutive attempts are
1, 2, 4 and 8 — not 1, 2, 4, 8 and 16 as the claim states: the 16-unit
sleep happens after the fifth attempt, not between two attempts. -/
theorem c4_counterexample :
    attCount (notify_evaluator_trace fun _ => some 503) = 5 ∧
    interDelays (notify_evaluator_trace fun _ => some 503) = [1, 2, 4, 8] ∧
    ¬interDelays (notify_evaluator_trace fun _ => some 503) = [1, 2, 4, 8, 16] := by
  refine ⟨rfl, rfl, by decide⟩

/-- C4 (amended): against an endpoint that always answers 503 the notifier
makes exactly 5 delivery attempts, sleeping 1, 2, 4, 8 and 16 time units
after the first to fifth failed attempts respectively — so the waits
between consecutive attempts are 1, 2, 4, 8, and the final 16-unit sleep
precedes the return — and then returns normally without raising and
without having delivered. -/
theorem c4_schedule_on_503 :
    notify_evaluator_trace (fun _ => some 503) =
      [NEvent.att (some 503), NEvent.slp 1, NEvent.att (some 503), NEvent.slp 2,
       NEvent.att (some 503), NEvent.slp 4, NEvent.att (some 503), NEvent.slp 8,
       NEvent.att (some 503), NEvent.slp 16] ∧
    attCount (notify_evaluator_trace fun _ => some 503) = 5 ∧
    delivered (notify_evaluator_trace fun _ => some 503) = false := by
  refine ⟨rfl, rfl, rfl⟩

/-- C5 counterexample: a 201 response is in the 200 class, yet the notifier
does not treat it as successful delivery — it retries all five times and
never records a delivery, because the code compares the status to 200
exactly. -/
theorem c5_counterexample :
    attCount (notify_evaluator_trace fun _ => some 201) = 5 ∧
    delivered (notify_evaluator_trace fun _ => some 201) = false := by
  refine ⟨rfl, rfl⟩

/-- C5 (amended): the notifier treats exactly status 200 — not the whole
200 class — as successful delivery and stops retrying there; every other
response status (including other 2xx statuses such as 201) and every
transport error triggers the next scheduled retry: if no scheduled attempt
answers 200 all five attempts are made with no delivery, and if attempt
`k` is the first to answer 200 the loop stops after `k + 1` attempts with
delivery recorded. -/
theorem c5_success_is_exactly_200 (resp : Nat → Option Nat) :
    ((∀ k, k < 5 → resp k ≠ some 200) →
      attCount (notify_evaluator_trace resp) = 5 ∧
        delivered (notify_evaluator_trace resp) = false) ∧
    (∀ k, k < 5 → resp k = some 200 → (∀ j, j < k → resp j ≠ some 200) →
      attCount (notify_evaluator_trace resp) = k + 1 ∧
        delivered (notify_evaluator_trace resp) = true) := by
  constructor
  · intro hall
    exact notifyLoopE_allFail resp notifyDelays 0
      (fun k _ hk2 => hall k (by simpa [notifyDelays] using hk2))
  · intro k hk hk200 hfirst
    have h := notifyLoopE_firstHit resp notifyDelays 0 k (Nat.zero_le k)
      (by simpa [notifyDelays] using hk) hk200 (fun j _ hj2 => hfirst j hj2)
    simpa using h

/-- Witness for C5: an endpoint answering 503, 503, 200 makes the notifier
stop after exactly three attempts with delivery recorded. -/
theorem c5_success_is_exactly_200_witness :
    attCount (notify_evaluator_trace respHitAt2) = 3 ∧
      delivered (notify_evaluator_trace respHitAt2) = true :=
  (c5_success_is_exactly_200 respHitAt2).2 2 (by decide) (by decide) (by decide)

/-- Helper for the handler-level secret guard: a parsed task whose secret
does not match the configured shared secret (including the cases where
the configured secret is unset or empty, which reject every request) is
answered with HTTP 401 and the handler performs no external call at all:
the effect trace is empty. -/
theorem ingest_secret_mismatch (shared : Option String) (user token : String)
    (t : TaskM) (env : IngestEnv)
    (h : ∀ v, shared = some v → v = "" ∨ t.secret ≠ v) :
    ingest shared user token t env = (Except.error 401, []) := by
  have hv : verify_secret shared t.secret = Except.error 401 := by
    unfold verify_secret
    rcases shared with _ | v
    · simp
    · rcases h v rfl with he | hne
      · subst he
        simp
      · have : some t.secret ≠ some v := by
          simpa using hne
        simp [this]
  unfold ingest
  rw [hv]

/-- C3 counterexample: a request whose secret field is missing is rejected
by request validation with HTTP 422 — still with zero external calls —
and not with the HTTP 401 the claim states. -/
theorem c3_counterexample :
    ingest_endpoint (some "s3cret") "user" "tok" rawTaskNoSecret ingestEnvOk =
        (Except.error 422, []) ∧
      ingest_endpoint (some "s3cret") "user" "tok" rawTaskNoSecret ingestEnvOk ≠
        (Except.error 401, []) := by
  have heq : ingest_endpoint (some "s3cret") "user" "tok" rawTaskNoSecret
      ingestEnvOk = (Except.error 422, []) := rfl
  refine ⟨heq, ?_⟩
  intro h
  rw [heq] at h
  simp at h

/-- C3 (amended): a request whose secret field is missing fails schema
validation and is rejected with HTTP 422 before any external call; a
request that parses against the schema but whose secret does not match
the configured shared secret is rejected by the handler with HTTP 401,
likewise with zero external calls and before any side effect. -/
theorem c3_secret_rejection (shared : Option String) (user token : String)
    (r : RawTask) (env : IngestEnv) :
    (r.secret = none →
      ingest_endpoint shared user token r env = (Except.error 422, [])) ∧
    (∀ t, parse_task r = Except.ok t →
      (∀ v, shared = some v → v = "" ∨ t.secret ≠ v) →
      ingest_endpoint shared user token r env = (Except.error 401, [])) := by
  constructor
  · intro h
    unfold ingest_endpoint parse_task
    rw [h]
  · intro t hp h
    unfold ingest_endpoint
    rw [hp]
    exact ingest_secret_mismatch shared user token t env h

/-- Witness for C3: a concrete request missing its secret field is
answered with 422 and an empty effect trace, and a concrete well-formed
request with the wrong secret is answered with 401 and an empty effect
trace. -/
theorem c3_secret_rejection_witness :
    ingest_endpoint (some "s3cret") "user" "tok" rawTaskNoSecret ingestEnvOk =
        (Except.error 422, []) ∧
      ingest_endpoint (some "s3cret") "user" "tok" rawTaskWrongSecret ingestEnvOk =
        (Except.error 401, []) :=
  ⟨(c3_secret_rejection (some "s3cret") "user" "tok" rawTaskNoSecret
      ingestEnvOk).1 rfl,
   (c3_secret_rejection (some "s3cret") "user" "tok" rawTaskWrongSecret
      ingestEnvOk).2 taskWrongSecret rfl
    (fun v hv => by
      cases hv
      exact Or.inr (by decide))⟩

/-- C10: for an authorized request, the handler takes the updater path
(its first external call is the repository update, and no repository
creation happens) exactly when the round is any value other than 1 —
including 0 and negative rounds — and takes the publisher path (its first
external call is generation, and no repository update happens) exactly
when the round is 1. -/
theorem c10_round_dispatch (shared : Option String) (user token : String)
    (t : TaskM) (env : IngestEnv) (v : String)
    (hsh : shared = some v) (hv : v ≠ "") (hsec : t.secret = v) :
    (t.round ≠ 1 →
      (ingest shared user token t env).2.head? = some Effect.update ∧
        Effect.publish ∉ (ingest shared user token t env).2) ∧
    (t.round = 1 →
      (ingest shared user token t env).2.head? = some Effect.generation ∧
        Effect.update ∉ (ingest shared user token t env).2) := by
  have hok : verify_secret shared t.secret = Except.ok () := by
    unfold verify_secret
    subst hsh
    have hcond : ¬(some v = none ∨ some v = some "" ∨ some t.secret ≠ some v) := by
      push_neg
      exact ⟨by simp, by simp [hv], by simp [hsec]⟩
    rw [if_neg hcond]
  constructor
  · intro hr
    unfold ingest
    rw [hok, if_neg hr]
    rcases hu : update_llm_app user token t.task env.apiKey env.resp env.uenv
      with e | ⟨sha, cmds⟩
    · simp
    · simp
  · intro hr
    unfold ingest
    rw [hok, if_pos hr]
    by_cases ha : env.attachOk
    · simp only [ha]
      rcases hg : generate_app_with_gemini env.apiKey env.resp with e | fs
      · simp
      · rcases hc : create_repo_and_push user token t.task env.penv with e | r
        · simp
        · simp
    · simp [ha]

/-- Witness for C10: a correctly authenticated round-0 request is routed
to the updater, not the publisher. -/
theorem c10_round_dispatch_witness :
    (ingest (some "s3cret") "user" "tok" taskRound0 ingestEnvOk).2.head? =
        some Effect.update ∧
      Effect.publish ∉ (ingest (some "s3cret") "user" "tok" taskRound0 ingestEnvOk).2 :=
  (c10_round_dispatch (some "s3cret") "user" "tok" taskRound0 ingestEnvOk
    "s3cret" rfl (by decide) rfl).1 (by decide)

/-- C2 counterexample: in an environment where every Pages-enablement
attempt fails with HTTP 500 (so the static-site-publishing enablement step
fails outright — the second conjunct), `create_repo_and_push` still
returns successfully instead of aborting the Task, refuting the claim that
a failure of this step is fatal. -/
theorem c2_counterexample :
    exOk (create_repo_and_push "user" "tok" "task-1" pubEnvPagesFail) = true ∧
      pagesLoopFrom pubEnvPagesFail.pagesAttempt 0 5 = false := by
  constructor
  · rfl
  · rfl

/-- C2 (amended): publishing succeeds exactly when every git subprocess
succeeds and the create-repository call is answered with 200, 201 or the
idempotent 422 "already exists" — in particular the "already exists"
response lets publishing continue, and the failure of any git step or any
other creation response aborts the Task; the outcome of the
static-site-publishing enablement step does not appear in the condition at
all: its failure is swallowed after five attempts and publishing
completes regardless. -/
theorem c2_fatality_policy (user token repo : String) (env : PubEnv) :
    exOk (create_repo_and_push user token repo env) = true ↔
      (env.initOk = true ∧ env.cfgEmailOk = true ∧ env.cfgNameOk = true ∧
       env.addOk = true ∧ env.commitOk = true ∧
       ((env.createStatus = 422 ∧ env.createMsgAlreadyExists = true) ∨
         env.createStatus = 200 ∨ env.createStatus = 201) ∧
       env.remoteAddOk = true ∧ env.pushOk = true ∧ env.setUrlOk = true ∧
       env.revParseOk = true) := by
  simp only [create_repo_and_push]
  simp only [exOk_ite_err, exOk_ite_status, exOk_ok, Bool.not_eq_true,
    not_not, and_true]
  constructor
  · rintro ⟨a1, a2, a3, a4, a5, a6, a7, a8, a9, a10⟩
    exact ⟨by simpa using a1, by simpa using a2, by simpa using a3,
      by simpa using a4, by simpa using a5, a6, by simpa using a7,
      by simpa using a8, by simpa using a9, by simpa using a10⟩
  · rintro ⟨a1, a2, a3, a4, a5, a6, a7, a8, a9, a10⟩
    exact ⟨by simp [a1], by simp [a2], by simp [a3], by simp [a4],
      by simp [a5], a6, by simp [a7], by simp [a8], by simp [a9],
      by simp [a10]⟩

/-- Witness for C2: a run in which the hosting platform answers the
create-repository call with 422 "already exists" and every other step
succeeds completes without aborting. -/
theorem c2_fatality_policy_witness :
    exOk (create_repo_and_push "user" "tok" "task-1" pubEnvExists) = true :=
  (c2_fatality_policy "user" "tok" "task-1" pubEnvExists).mpr (by decide)

/-- C9: whenever `create_repo_and_push` or `update_llm_app` returns
successfully, the working tree's `origin` remote URL ends up at the
non-authenticated public form, and the one push each function performs was
made while the remote was the short-lived token-bearing URL — so no
credential persists in the local repository configuration. -/
theorem c9_remote_hygiene (user token repo : String) (penv : PubEnv)
    (apiKey : Option String) (resp : Except String (Option String))
    (uenv : UpdEnv) :
    (∀ r, create_repo_and_push user token repo penv = Except.ok r →
      dictGet (gitRun r.cmds).remotes "origin" = some (public_remote user repo) ∧
        (gitRun r.cmds).pushedWith = [token_remote user token repo]) ∧
    (∀ sha cmds,
      update_llm_app user token repo apiKey resp uenv = Except.ok (sha, cmds) →
      dictGet (gitRun cmds).remotes "origin" = some (public_remote user repo) ∧
        (gitRun cmds).pushedWith = [token_remote user token repo]) := by
  constructor
  · intro r hr
    simp only [create_repo_and_push] at hr
    replace hr := ite_err_ok (ite_err_ok (ite_err_ok (ite_err_ok
      (ite_status_ok (ite_err_ok (ite_err_ok (ite_err_ok (ite_err_ok
        (ite_err_ok hr)))))))))
    injection hr with h
    subst h
    constructor
    · simp [gitRun, gitStep, dictSet, dictGet]
    · simp [gitRun, gitStep, dictSet, dictGet]
  · intro sha cmds hr
    simp only [update_llm_app] at hr
    replace hr := ite_err_ok (ite_err_ok hr)
    rcases hg : generate_app_with_gemini apiKey resp with e | fs
    · rw [hg] at hr
      exact Except.noConfusion hr
    · rw [hg] at hr
      replace hr := ite_err_ok (ite_err_ok (ite_err_ok (ite_err_ok
        (ite_err_ok (ite_err_ok (ite_err_ok (ite_err_ok hr)))))))
      injection hr with h
      rw [Prod.mk.injEq] at h
      obtain ⟨h1, h2⟩ := h
      subst h2
      by_cases hco : uenv.checkoutOk
      · constructor
        · simp [hco, gitRun, gitStep, dictSet, dictGet]
        · simp [hco, gitRun, gitStep, dictSet, dictGet]
      · constructor
        · simp [hco, gitRun, gitStep, dictSet, dictGet]
        · simp [hco, gitRun, gitStep, dictSet, dictGet]

/-- Witness for C9: concrete successful publish and update runs, each
leaving `origin` at the public URL having pushed via the tokenized URL. -/
theorem c9_remote_hygiene_witness :
    (∀ r, create_repo_and_push "user" "tok" "task-1" pubEnvOk = Except.ok r →
      dictGet (gitRun r.cmds).remotes "origin" =
          some (public_remote "user" "task-1") ∧
        (gitRun r.cmds).pushedWith = [token_remote "user" "tok" "task-1"]) ∧
    (∀ sha cmds,
      update_llm_app "user" "tok" "task-1" (some "k")
          (Except.ok (some "```html\nhi\n```")) updEnvOk = Except.ok (sha, cmds) →
      dictGet (gitRun cmds).remotes "origin" =
          some (public_remote "user" "task-1") ∧
        (gitRun cmds).pushedWith = [token_remote "user" "tok" "task-1"]) :=
  c9_remote_hygiene "user" "tok" "task-1" pubEnvOk (some "k")
    (Except.ok (some "```html\nhi\n```")) updEnvOk

end LlmDeploy
